import Mathlib

/-!
# Verification of the bounded worker pool and DNS resolver of `digital-advisor`

Shallow embedding of `digital_advisor/commands/utils/threading.py`
(`threadpool_generator`) and `digital_advisor/commands/utils/dns.py`
(`DNSClient`), together with proofs about the embedded definitions.

The generator interleaves with a thread scheduler: each pass of its
`while futures:` loop waits for a nonempty set of in-flight futures to
complete, yields their results, and resubmits as many new inputs as were
completed.  The embedding makes that nondeterminism explicit: a *schedule*
is the list of completion batches chosen by the runtime, one per loop pass,
and every theorem quantifies over all valid schedules.
-/

namespace DigitalAdvisor

/-- `queue_length = num_threads * 2` (threading.py line 36). -/
def queue_length (num_threads : Nat) : Nat :=
  num_threads * 2

/-- The coordinator state of `threadpool_generator` between two passes of its
`while futures:` loop (threading.py lines 43-64):
`args` is the not-yet-consumed suffix of the input iterator, `futures` the
multiset of inputs submitted to the executor but not yet yielded, and
`yielded` the multiset of results handed to the caller so far. -/
structure PoolState (α β : Type) where
  args : List α
  futures : Multiset α
  yielded : Multiset β
deriving DecidableEq

/-- The generator body down to the first `wait`: consume up to `queue_length`
items from the input iterator and submit one future per item
(threading.py lines 43-49). -/
def initPool (num_threads : Nat) (args : List α) : PoolState α β :=
  { args := args.drop (queue_length num_threads)
  , futures := Multiset.ofList (args.take (queue_length num_threads))
  , yielded := 0 }

/-- One pass of the `while futures:` loop (threading.py lines 52-64), given
the batch `completed` of futures the scheduler reports as done: their results
are yielded, and `len(completed)` further items are sliced off the input
iterator and submitted. -/
def stepPool [DecidableEq α] (f : α → β) (s : PoolState α β)
    (completed : Multiset α) : PoolState α β :=
  { args := s.args.drop completed.card
  , futures := (s.futures - completed)
      + Multiset.ofList (s.args.take completed.card)
  , yielded := s.yielded + completed.map f }

/-- Run the loop under a given schedule, one completion batch per pass,
returning the coordinator state reached (or `none` if a batch is not a
nonempty sub-multiset of the in-flight futures, i.e. the schedule is not
one the runtime could produce). -/
def runPoolAux [DecidableEq α] (f : α → β) :
    List (Multiset α) → PoolState α β → Option (PoolState α β)
  | [], s => some s
  | c :: cs, s =>
      if c ≠ 0 ∧ c ≤ s.futures then runPoolAux f cs (stepPool f s c)
      else none

/-- `threadpool_generator(num_threads, function, args)` iterated to
exhaustion under schedule `sched`: the loop exits when `futures` is empty,
and the multiset of all yielded results is returned.  `none` means the
schedule is invalid or does not drive the loop to termination. -/
def threadpool_generator [DecidableEq α] (num_threads : Nat) (f : α → β)
    (args : List α) (sched : List (Multiset α)) : Option (Multiset β) :=
  match runPoolAux f sched (initPool num_threads args) with
  | some s => if s.futures = 0 then some s.yielded else none
  | none => none

example :
    threadpool_generator 1 (fun n => n + 10) [1, 2, 3]
      [{1}, {2}, {3}] = some {11, 12, 13} := by decide

example :
    threadpool_generator 2 (fun n => n + 10) [1, 2, 3, 4, 5, 6]
      [{1, 2}, {3, 4, 5}, {6}] = some {11, 12, 13, 14, 15, 16} := by decide

example :
    threadpool_generator 1 (fun n => n + 10) ([] : List Nat) []
      = some 0 := by decide

/-! ## Invariants of one loop pass -/

/-- A loop pass conserves work: the results already yielded plus the image of
everything still pending (in flight or unread input) is unchanged. -/
lemma stepPool_conservation [DecidableEq α] (f : α → β) (s : PoolState α β)
    (c : Multiset α) (hc : c ≤ s.futures) :
    (stepPool f s c).yielded
      + ((stepPool f s c).futures
          + Multiset.ofList (stepPool f s c).args).map f
      = s.yielded + (s.futures + Multiset.ofList s.args).map f := by
  have hfut : s.futures - c + c = s.futures := tsub_add_cancel_of_le hc
  have hsplit : Multiset.ofList (s.args.take c.card)
      + Multiset.ofList (s.args.drop c.card) = Multiset.ofList s.args := by
    rw [Multiset.coe_add, List.take_append_drop]
  conv_rhs => rw [← hfut, ← hsplit]
  simp only [stepPool, Multiset.map_add]
  abel

/-- A loop pass never grows the in-flight multiset: at most as many new
futures are submitted as were just completed. -/
lemma stepPool_card_le [DecidableEq α] (f : α → β) (s : PoolState α β)
    (c : Multiset α) (hc : c ≤ s.futures) :
    (stepPool f s c).futures.card ≤ s.futures.card := by
  have h1 := Multiset.card_le_card hc
  simp only [stepPool, Multiset.card_add, Multiset.card_sub hc,
    Multiset.coe_card, List.length_take]
  omega

/-- A loop pass conserves the item count: every input item is unread, in
flight, or yielded, and moves only forward along that pipeline. -/
lemma stepPool_total [DecidableEq α] (f : α → β) (s : PoolState α β)
    (c : Multiset α) (hc : c ≤ s.futures) :
    (stepPool f s c).args.length + ((stepPool f s c).futures.card
      + (stepPool f s c).yielded.card)
      = s.args.length + (s.futures.card + s.yielded.card) := by
  have h1 := Multiset.card_le_card hc
  simp only [stepPool, Multiset.card_add, Multiset.card_sub hc,
    Multiset.coe_card, List.length_take, List.length_drop, Multiset.card_map]
  omega

/-- After a loop pass, either the input is exhausted or some future is still
in flight (so the `while futures:` loop cannot exit with input left over). -/
lemma stepPool_progress [DecidableEq α] (f : α → β) (s : PoolState α β)
    (c : Multiset α) (hc : c ≠ 0) :
    (stepPool f s c).args = [] ∨ (stepPool f s c).futures ≠ 0 := by
  rcases eq_or_ne s.args [] with h | h
  · left
    simp [stepPool, h]
  · right
    have hcard : 0 < c.card := Multiset.card_pos.mpr hc
    have hlen : 0 < s.args.length := List.length_pos.mpr h
    refine Multiset.card_pos.mp ?_
    simp only [stepPool, Multiset.card_add, Multiset.coe_card,
      List.length_take]
    omega

/-! ## The same invariants along a whole scheduled run -/

lemma runPoolAux_conservation [DecidableEq α] (f : α → β) :
    ∀ (sched : List (Multiset α)) (s s' : PoolState α β),
      runPoolAux f sched s = some s' →
      s'.yielded + (s'.futures + Multiset.ofList s'.args).map f
        = s.yielded + (s.futures + Multiset.ofList s.args).map f
  | [], s, s', h => by
      rw [runPoolAux] at h
      cases h
      rfl
  | c :: cs, s, s', h => by
      rw [runPoolAux] at h
      split_ifs at h with hcond
      · exact (runPoolAux_conservation f cs _ s' h).trans
          (stepPool_conservation f s c hcond.2)

lemma runPoolAux_card_le [DecidableEq α] (f : α → β) :
    ∀ (sched : List (Multiset α)) (s s' : PoolState α β),
      runPoolAux f sched s = some s' → s'.futures.card ≤ s.futures.card
  | [], s, s', h => by
      rw [runPoolAux] at h
      cases h
      exact le_refl _
  | c :: cs, s, s', h => by
      rw [runPoolAux] at h
      split_ifs at h with hcond
      · exact (runPoolAux_card_le f cs _ s' h).trans
          (stepPool_card_le f s c hcond.2)

lemma runPoolAux_total [DecidableEq α] (f : α → β) :
    ∀ (sched : List (Multiset α)) (s s' : PoolState α β),
      runPoolAux f sched s = some s' →
      s'.args.length + (s'.futures.card + s'.yielded.card)
        = s.args.length + (s.futures.card + s.yielded.card)
  | [], s, s', h => by
      rw [runPoolAux] at h
      cases h
      rfl
  | c :: cs, s, s', h => by
      rw [runPoolAux] at h
      split_ifs at h with hcond
      · exact (runPoolAux_total f cs _ s' h).trans
          (stepPool_total f s c hcond.2)

lemma runPoolAux_progress [DecidableEq α] (f : α → β) :
    ∀ (sched : List (Multiset α)) (s s' : PoolState α β),
      runPoolAux f sched s = some s' →
      (s.args = [] ∨ s.futures ≠ 0) → (s'.args = [] ∨ s'.futures ≠ 0)
  | [], s, s', h, hs => by
      rw [runPoolAux] at h
      cases h
      exact hs
  | c :: cs, s, s', h, _ => by
      rw [runPoolAux] at h
      split_ifs at h with hcond
      · exact runPoolAux_progress f cs _ s' h
          (stepPool_progress f s c hcond.1)

/-! ## The initial state produced by priming the pool -/

lemma initPool_futures_add_args (num_threads : Nat) (args : List α) :
    (initPool num_threads args : PoolState α β).futures
      + Multiset.ofList (initPool num_threads args : PoolState α β).args
      = Multiset.ofList args := by
  simp only [initPool]
  rw [Multiset.coe_add, List.take_append_drop]

lemma initPool_futures_card (num_threads : Nat) (args : List α) :
    (initPool num_threads args : PoolState α β).futures.card
      ≤ queue_length num_threads := by
  simp only [initPool, Multiset.coe_card, List.length_take]
  omega

lemma initPool_total (num_threads : Nat) (args : List α) :
    (initPool num_threads args : PoolState α β).args.length
      + ((initPool num_threads args : PoolState α β).futures.card
        + (initPool num_threads args : PoolState α β).yielded.card)
      = args.length := by
  simp only [initPool, Multiset.coe_card, List.length_take, List.length_drop,
    Multiset.card_zero]
  omega

lemma initPool_progress (num_threads : Nat) (args : List α)
    (h1 : 1 ≤ num_threads) :
    (initPool num_threads args : PoolState α β).args = []
      ∨ (initPool num_threads args : PoolState α β).futures ≠ 0 := by
  rcases eq_or_ne args [] with h | h
  · left
    simp [initPool, h]
  · right
    simp only [initPool, ne_eq, Multiset.coe_eq_zero]
    intro hnil
    have hlen := congrArg List.length hnil
    rw [List.length_take] at hlen
    have h2 := List.length_pos.mpr h
    have h3 : queue_length num_threads = num_threads * 2 := rfl
    simp only [List.length_nil] at hlen
    omega

/-- Any run of the generator that exhausts its futures set has yielded the
worker's image of the whole input, provided at least one thread exists. -/
lemma threadpool_generator_complete [DecidableEq α] (f : α → β)
    (num_threads : Nat) (args : List α) (sched : List (Multiset α))
    (ys : Multiset β) (h1 : 1 ≤ num_threads)
    (h : threadpool_generator num_threads f args sched = some ys) :
    ys = Multiset.ofList (args.map f) := by
  unfold threadpool_generator at h
  rcases hr : runPoolAux f sched (initPool num_threads args) with _ | s
  · rw [hr] at h
    exact Option.noConfusion h
  · rw [hr] at h
    replace h : (if s.futures = 0 then some s.yielded else none) = some ys := h
    split_ifs at h with hfut
    · cases h
      have hcons := runPoolAux_conservation f sched _ s hr
      have hprog := runPoolAux_progress f sched _ s hr
        (initPool_progress num_threads args h1)
      rcases hprog with hargs | hne
      · rw [hfut, hargs] at hcons
        rw [initPool_futures_add_args num_threads args] at hcons
        simpa [initPool, Multiset.map_coe] using hcons
      · exact absurd hfut hne

/-! ## Claim theorems about the worker pool -/

/-- C1: For every finite input sequence of length `N` and every
`num_threads ≥ 1`, iterating `threadpool_generator` to exhaustion (under any
schedule of completions the runtime can produce) yields exactly `N` results:
the multiset yielded is the worker's image of the input multiset, so each
input item is consumed exactly once, with no result duplicated or lost. -/
theorem threadpool_generator_yields_each_input_once [DecidableEq α]
    (f : α → β) (num_threads : Nat) (args : List α)
    (sched : List (Multiset α)) (ys : Multiset β) (h1 : 1 ≤ num_threads)
    (h : threadpool_generator num_threads f args sched = some ys) :
    ys.card = args.length ∧ ys = (Multiset.ofList args).map f := by
  have hy := threadpool_generator_complete f num_threads args sched ys h1 h
  constructor
  · rw [hy, Multiset.coe_card, List.length_map]
  · rw [hy, Multiset.map_coe]

theorem threadpool_generator_yields_each_input_once_witness :
    ({11, 12, 13} : Multiset Nat).card = [1, 2, 3].length
      ∧ ({11, 12, 13} : Multiset Nat)
        = (Multiset.ofList [1, 2, 3]).map (fun n => n + 10) :=
  threadpool_generator_yields_each_input_once (fun n => n + 10) 1 [1, 2, 3]
    [{1}, {2}, {3}] {11, 12, 13} (by decide) (by decide)

/-- C2: at every point during iteration (i.e. after every valid schedule
prefix), the number of tasks submitted to the executor but not yet yielded
is at most `num_threads * 2`, the `queue_length` computed at start. -/
theorem threadpool_generator_in_flight_bounded [DecidableEq α] (f : α → β)
    (num_threads : Nat) (args : List α) (sched : List (Multiset α))
    (s' : PoolState α β) (_h1 : 1 ≤ num_threads)
    (h : runPoolAux f sched (initPool num_threads args) = some s') :
    s'.futures.card ≤ num_threads * 2 := by
  have h2 := runPoolAux_card_le f sched _ s' h
  have h3 := initPool_futures_card (β := β) num_threads args
  have h4 : queue_length num_threads = num_threads * 2 := rfl
  omega

theorem threadpool_generator_in_flight_bounded_witness :
    (⟨[], {2, 3}, {11}⟩ : PoolState Nat Nat).futures.card ≤ 1 * 2 :=
  threadpool_generator_in_flight_bounded (fun n => n + 10) 1 [1, 2, 3] [{1}]
    ⟨[], {2, 3}, {11}⟩ (by decide) (by decide)

/-- Reference sequential implementation the spec compares the pool against
(spec section 8): apply the worker to each input in order. -/
def sequential_reference (f : α → β) (args : List α) : List β :=
  args.map f

/-- C4: for every completion/arrival order of the concurrently executing
tasks (every valid schedule), the multiset of results of a full run equals
the multiset produced by the reference sequential implementation: only the
order of the yielded sequence may vary, never its contents. -/
theorem threadpool_generator_matches_sequential [DecidableEq α] (f : α → β)
    (num_threads : Nat) (args : List α) (sched : List (Multiset α))
    (ys : Multiset β) (h1 : 1 ≤ num_threads)
    (h : threadpool_generator num_threads f args sched = some ys) :
    ys = Multiset.ofList (sequential_reference f args) :=
  threadpool_generator_complete f num_threads args sched ys h1 h

theorem threadpool_generator_matches_sequential_witness :
    ({20, 40, 10, 30} : Multiset Nat)
      = Multiset.ofList (sequential_reference (fun n => n * 10) [1, 2, 3, 4]) :=
  threadpool_generator_matches_sequential (fun n => n * 10) 2 [1, 2, 3, 4]
    [{2, 4}, {1, 3}] {20, 40, 10, 30} (by decide) (by decide)

/-- C10: at every point during iteration, the number of items consumed so
far from the input iterator is at most the number of results already yielded
plus `num_threads * 2`, so large inputs are read only as needed. -/
theorem threadpool_generator_consumes_lazily [DecidableEq α] (f : α → β)
    (num_threads : Nat) (args : List α) (sched : List (Multiset α))
    (s' : PoolState α β) (_h1 : 1 ≤ num_threads)
    (h : runPoolAux f sched (initPool num_threads args) = some s') :
    args.length - s'.args.length ≤ s'.yielded.card + num_threads * 2 := by
  have htot := (runPoolAux_total f sched _ s' h).trans
    (initPool_total (β := β) num_threads args)
  have hc := (runPoolAux_card_le f sched _ s' h).trans
    (initPool_futures_card (β := β) num_threads args)
  have h3 : queue_length num_threads = num_threads * 2 := rfl
  omega

theorem threadpool_generator_consumes_lazily_witness :
    [1, 2, 3, 4].length - [4].length ≤ ({11} : Multiset Nat).card + 1 * 2 :=
  threadpool_generator_consumes_lazily (fun n => n + 10) 1 [1, 2, 3, 4] [{1}]
    ⟨[4], {2, 3}, {11}⟩ (by decide) (by decide)

/-! ## The pool with a worker that may raise

The pure model above bakes in the spec's "must not raise" worker contract.
To settle what happens when a worker *does* raise, the same generator is
embedded again with a fallible worker `α → Except ε β`: the
`for future in completed: yield future.result()` loop retrieves results in
batch order, and the first `future.result()` that re-raises a stored worker
exception propagates out of the generator, ending the iteration. -/

/-- Pool state for the fallible-worker model.  Yielded results are kept in
yield order, because an exception interrupts the yield loop mid-batch. -/
structure PoolStateE (α β : Type) where
  args : List α
  futures : Multiset α
  yielded : List β
deriving DecidableEq

/-- Priming (threading.py lines 43-49), fallible-worker model. -/
def initPoolE (num_threads : Nat) (args : List α) : PoolStateE α β :=
  { args := args.drop (queue_length num_threads)
  , futures := Multiset.ofList (args.take (queue_length num_threads))
  , yielded := [] }

/-- The `for future in completed: yield future.result()` loop
(threading.py lines 58-60): results are retrieved in batch order, and the
first stored worker exception is re-raised by `future.result()`. -/
def drainBatch (f : α → Except ε β) : List α → Except ε (List β)
  | [] => Except.ok []
  | a :: rest =>
      match f a with
      | Except.ok b => (drainBatch f rest).map (fun bs => b :: bs)
      | Except.error e => Except.error e

/-- One full pass of the loop in which every result of the completed batch
was retrieved without an exception (threading.py lines 52-64). -/
def stepPoolE [DecidableEq α] (s : PoolStateE α β) (c : List α)
    (bs : List β) : PoolStateE α β :=
  { args := s.args.drop c.length
  , futures := (s.futures - Multiset.ofList c)
      + Multiset.ofList (s.args.take c.length)
  , yielded := s.yielded ++ bs }

/-- Run the loop under a schedule of ordered completion batches: `none` for
a schedule the runtime cannot produce, `Except.error e` as soon as
retrieving a result re-raises worker exception `e` (ending the iteration),
and `Except.ok` with all yielded results when the loop exits normally. -/
def runPoolE [DecidableEq α] (f : α → Except ε β) :
    List (List α) → PoolStateE α β → Option (Except ε (List β))
  | [], s => if s.futures = 0 then some (Except.ok s.yielded) else none
  | c :: cs, s =>
      if c ≠ [] ∧ Multiset.ofList c ≤ s.futures then
        match drainBatch f c with
        | Except.ok bs => runPoolE f cs (stepPoolE s c bs)
        | Except.error e => some (Except.error e)
      else none

/-- The exception-free part of a run: the coordinator state after a schedule
prefix none of whose batches raised. -/
def runPoolEAux [DecidableEq α] (f : α → Except ε β) :
    List (List α) → PoolStateE α β → Option (PoolStateE α β)
  | [], s => some s
  | c :: cs, s =>
      if c ≠ [] ∧ Multiset.ofList c ≤ s.futures then
        match drainBatch f c with
        | Except.ok bs => runPoolEAux f cs (stepPoolE s c bs)
        | Except.error _ => none
      else none

lemma runPoolE_append [DecidableEq α] (f : α → Except ε β) :
    ∀ (pre : List (List α)) (s s' : PoolStateE α β) (tail : List (List α)),
      runPoolEAux f pre s = some s' →
      runPoolE f (pre ++ tail) s = runPoolE f tail s'
  | [], s, s', tail, h => by
      rw [runPoolEAux] at h
      cases h
      rfl
  | c :: cs, s, s', tail, h => by
      rw [runPoolEAux] at h
      split_ifs at h with hcond
      · rcases hd : drainBatch f c with e | bs
        · rw [hd] at h
          exact Option.noConfusion h
        · rw [hd] at h
          rw [List.cons_append, runPoolE, if_pos hcond, hd]
          exact runPoolE_append f cs _ s' tail h

/-- C6: the pool does not catch, retry, or suppress a worker exception.  If,
after any exception-free schedule prefix, a completed batch contains an
input on which the worker raises, then retrieving that batch's results
terminates the whole iteration with exactly that exception, whatever
completions might have followed. -/
theorem threadpool_generator_propagates_worker_exception [DecidableEq α]
    (f : α → Except ε β) (num_threads : Nat) (args : List α)
    (pre rest : List (List α)) (c : List α) (s : PoolStateE α β) (e : ε)
    (hpre : runPoolEAux f pre (initPoolE num_threads args) = some s)
    (hne : c ≠ []) (hsub : Multiset.ofList c ≤ s.futures)
    (herr : drainBatch f c = Except.error e) :
    runPoolE f (pre ++ c :: rest) (initPoolE num_threads args)
      = some (Except.error e) := by
  rw [runPoolE_append f pre _ s (c :: rest) hpre]
  rw [runPoolE, if_pos ⟨hne, hsub⟩, herr]

theorem threadpool_generator_propagates_worker_exception_witness :
    runPoolE (fun n => if n = 2 then Except.error 7 else Except.ok (n * 10))
      [[1], [2], [3]] (initPoolE 1 [1, 2, 3]) = some (Except.error 7) :=
  threadpool_generator_propagates_worker_exception
    (fun n => if n = 2 then Except.error 7 else Except.ok (n * 10))
    1 [1, 2, 3] [[1]] [[3]] [2] ⟨[], {2, 3}, [10]⟩ 7
    (by decide) (by decide) (by decide) rfl

/-! ## The DNS resolver (`digital_advisor/commands/utils/dns.py`)

The external resolver calls are opaque blocking syscalls; the embedding
abstracts one call as an oracle returning a `SocketOutcome`.  Besides
success, the outcomes CPython's `socket.gethostbyname` /
`socket.gethostbyaddr` produce are an `OSError` (including
`socket.gaierror` for unknown hosts) and a `UnicodeError`, raised by the
`idna` codec while encoding a malformed name (an empty label, or a label
longer than 63 characters); dns.py itself lists exactly these two in the
`except` clause of `_gethostbyaddr` (line 134). -/

/-- Outcome of one call to the external resolver. -/
inductive SocketOutcome (γ : Type) where
  | ok (value : γ)
  | osError (msg : String)
  | unicodeError (msg : String)
deriving DecidableEq

namespace DNSClient

/-- `DNSClient.__init__` (dns.py lines 22-33): the stored `num_threads`,
defaulting to `os.cpu_count() * 4` when not given. -/
def init (cpu_count : Nat) (num_threads : Option Nat) : Nat :=
  match num_threads with
  | some n => n
  | none => cpu_count * 4

/-- `DNSClient._gethostbyname` (dns.py lines 99-117): the call
`socket.gethostbyname(hostname)` is the oracle `resolve`; only `OSError`
is caught (line 114), so a `UnicodeError` escapes as a raised exception
(`Except.error`). -/
def _gethostbyname (resolve : String → SocketOutcome String)
    (hostname : String) : Except String (String × Option String) :=
  match resolve hostname with
  | SocketOutcome.ok address => Except.ok (hostname, some address)
  | SocketOutcome.osError _ => Except.ok (hostname, none)
  | SocketOutcome.unicodeError msg => Except.error msg

/-- `DNSClient._gethostbyaddr` (dns.py lines 119-137): the call
`socket.gethostbyaddr(address)` is the oracle `resolveAddr` (returning the
`hostname` component of the `(hostname, aliaslist, ipaddrlist)` triple) and
`socket.getfqdn` the oracle `getfqdn`; both `OSError` and `UnicodeError`
are caught (line 134). -/
def _gethostbyaddr (resolveAddr : String → SocketOutcome String)
    (getfqdn : String → String) (address : String) :
    Except String (String × Option String) :=
  match resolveAddr address with
  | SocketOutcome.ok hostname => Except.ok (address, some (getfqdn hostname))
  | SocketOutcome.osError _ => Except.ok (address, none)
  | SocketOutcome.unicodeError _ => Except.ok (address, none)

end DNSClient

/-- C3: contrary to the claim (and to `_gethostbyname`'s own docstring,
"Address is either a string, or None if lookup failed"), `_gethostbyname`
does not convert *every* resolution failure into a `None` result: a
`UnicodeError` from IDNA-encoding a malformed hostname is outside its
`except OSError` clause and propagates as an exception — evaluated here at
a concrete failing input — whereas `_gethostbyaddr` catches `UnicodeError`
too and so really does return `(address, None)` on every failure. -/
theorem gethostbyname_unicode_failure_escapes :
    DNSClient._gethostbyname
        (fun _ => SocketOutcome.unicodeError "label empty or too long")
        "aaaaaaaaaaaaaaaaaaaaaaaaaaaaaaaaaaaaaaaaaaaaaaaaaaaaaaaaaaaaaaaa.nz"
      = Except.error "label empty or too long"
    ∧ ∀ (resolveAddr : String → SocketOutcome String)
        (getfqdn : String → String) (address : String),
        ∃ result, DNSClient._gethostbyaddr resolveAddr getfqdn address
          = Except.ok (address, result) := by
  refine ⟨rfl, fun resolveAddr getfqdn address => ?_⟩
  cases h : resolveAddr address with
  | ok hostname =>
      exact ⟨some (getfqdn hostname), by
        simp [DNSClient._gethostbyaddr, h]⟩
  | osError msg =>
      exact ⟨none, by simp [DNSClient._gethostbyaddr, h]⟩
  | unicodeError msg =>
      exact ⟨none, by simp [DNSClient._gethostbyaddr, h]⟩

/-- Python call binding for the signature
`def threadpool_generator(num_threads, function, args)` (threading.py
line 9): `num_threads` is a required positional parameter with no default
value, so a call omitting it raises `TypeError` before any generator
exists — despite the docstring (threading.py lines 29-31) promising a
cores-times-four default when not given. -/
def threadpool_generator_bind_num_threads (given : Option Nat) :
    Except String Nat :=
  match given with
  | some n => Except.ok n
  | none => Except.error
      "TypeError: threadpool_generator() missing 1 required positional argument: num_threads"

/-- C7: the `DNSClient` half of the claim holds — constructed with no
`num_threads`, it fixes its concurrency at `os.cpu_count() * 4`,
deterministically in the CPU count — but `threadpool_generator` itself,
despite its docstring, accepts no unspecified concurrency: `num_threads`
has no default value, so a call omitting it is a `TypeError`, not a
cores-times-four default. -/
theorem dns_default_concurrency :
    (∀ cpu_count : Nat, DNSClient.init cpu_count none = cpu_count * 4)
    ∧ (∀ (cpu_count n : Nat), DNSClient.init cpu_count (some n) = n)
    ∧ threadpool_generator_bind_num_threads none
      = Except.error
        "TypeError: threadpool_generator() missing 1 required positional argument: num_threads" :=
  ⟨fun _ => rfl, fun _ _ => rfl, rfl⟩

/-- The first `next()` on the generator when `num_threads` may be any
Python integer: `queue_length` and the debug log are computed first, then
`ThreadPoolExecutor(max_workers=num_threads)` raises
`ValueError("max_workers must be greater than 0")` for `num_threads ≤ 0`
(CPython's documented precondition), before the first `islice` has consumed
any input item; otherwise priming proceeds as in `initPool`. -/
def threadpool_generator_first_step (num_threads : Int) (args : List α) :
    Except String (PoolState α β) :=
  if num_threads ≤ 0 then
    Except.error "ValueError: max_workers must be greater than 0"
  else
    Except.ok (initPool num_threads.toNat args)

/-- Calling `threadpool_generator(...)` merely creates the generator
object: the body is deferred to the first iteration, so the call returns
its arguments unevaluated and can raise nothing. -/
def threadpool_generator_call (num_threads : Int) (args : List α) :
    Int × List α :=
  (num_threads, args)

/-- C9: for every `num_threads ≤ 0` and every input list, calling
`threadpool_generator` raises nothing (the generator body is deferred), and
the first iteration step raises `ValueError` from constructing the executor
with a non-positive worker count — before any input item is consumed and
before any result is yielded. -/
theorem threadpool_generator_nonpositive_raises (num_threads : Int)
    (args : List α) (h : num_threads ≤ 0) :
    threadpool_generator_call num_threads args = (num_threads, args)
    ∧ threadpool_generator_first_step (β := β) num_threads args
      = Except.error "ValueError: max_workers must be greater than 0" := by
  refine ⟨rfl, ?_⟩
  unfold threadpool_generator_first_step
  rw [if_pos h]

theorem threadpool_generator_nonpositive_raises_witness :
    threadpool_generator_call (-3) ([1, 2] : List Nat) = (-3, [1, 2])
    ∧ threadpool_generator_first_step (β := Nat) (-3) ([1, 2] : List Nat)
      = Except.error "ValueError: max_workers must be greater than 0" :=
  threadpool_generator_nonpositive_raises (-3) [1, 2] (by decide)

/-! ## The event traces of `lookup` and `reverse_lookup`

`lookup` and `reverse_lookup` are generators wrapped around the pool.  What
a caller can observe of one call is the sequence of yielded pairs followed
(only once the inner loop finds the pool exhausted) by the one
`logger.info` summary line.  A caller that performs `k` generator requests
observes exactly the first `k` events of that trace: each of the first `N`
requests returns one pair, and the summary is logged during the request
that discovers exhaustion (the `N+1`-st, which raises `StopIteration`). -/

/-- One externally observable event of a `lookup`/`reverse_lookup` call. -/
inductive LookupEvent where
  | yield (pair : String × Option String)
  | summary (num_resolved num_failed : Nat)
deriving DecidableEq

def LookupEvent.isSummary : LookupEvent → Bool
  | LookupEvent.summary _ _ => true
  | LookupEvent.yield _ => false

/-- The `for hostname, address in generator:` loop of `DNSClient.lookup`
(dns.py lines 54-65), threading the two counters; the summary line runs
only after the loop exhausts the pool's results. -/
def lookupLoop :
    List (String × Option String) → Nat → Nat → List LookupEvent
  | [], num_resolved, num_failed =>
      [LookupEvent.summary num_resolved num_failed]
  | (hostname, none) :: rest, num_resolved, num_failed =>
      LookupEvent.yield (hostname, none)
        :: lookupLoop rest num_resolved (num_failed + 1)
  | (hostname, some address) :: rest, num_resolved, num_failed =>
      LookupEvent.yield (hostname, some address)
        :: lookupLoop rest (num_resolved + 1) num_failed

/-- `DNSClient.lookup` (dns.py lines 35-65) as its full event trace, given
the results the pool delivers (one `(hostname, address)` pair per input
hostname, in completion order). -/
def DNSClient.lookup (results : List (String × Option String)) :
    List LookupEvent :=
  lookupLoop results 0 0

/-- The `for address, hostname in generator:` loop of
`DNSClient.reverse_lookup` (dns.py lines 85-97). -/
def reverseLookupLoop :
    List (String × Option String) → Nat → Nat → List LookupEvent
  | [], num_resolved, num_failed =>
      [LookupEvent.summary num_resolved num_failed]
  | (address, none) :: rest, num_resolved, num_failed =>
      LookupEvent.yield (address, none)
        :: reverseLookupLoop rest num_resolved (num_failed + 1)
  | (address, some hostname) :: rest, num_resolved, num_failed =>
      LookupEvent.yield (address, some hostname)
        :: reverseLookupLoop rest (num_resolved + 1) num_failed

/-- `DNSClient.reverse_lookup` (dns.py lines 67-97) as its full event
trace, given the results the pool delivers. -/
def DNSClient.reverse_lookup (results : List (String × Option String)) :
    List LookupEvent :=
  reverseLookupLoop results 0 0

lemma lookupLoop_eq :
    ∀ (results : List (String × Option String))
      (num_resolved num_failed : Nat),
      lookupLoop results num_resolved num_failed
        = results.map LookupEvent.yield
          ++ [LookupEvent.summary
                (num_resolved + results.countP (fun p => p.2.isSome))
                (num_failed + results.countP (fun p => p.2.isNone))]
  | [], r, f0 => by simp [lookupLoop]
  | (hostname, none) :: rest, r, f0 => by
      have h1 : ((hostname, none) :: rest).countP (fun p => p.2.isSome)
          = rest.countP (fun p => p.2.isSome) := by
        simp [List.countP_cons]
      have h2 : ((hostname, none) :: rest).countP (fun p => p.2.isNone)
          = rest.countP (fun p => p.2.isNone) + 1 := by
        simp [List.countP_cons]
      have h3 : f0 + (rest.countP (fun p => p.2.isNone) + 1)
          = f0 + 1 + rest.countP (fun p => p.2.isNone) := by omega
      rw [lookupLoop, lookupLoop_eq rest r (f0 + 1), List.map_cons,
        List.cons_append, h1, h2, h3]
  | (hostname, some address) :: rest, r, f0 => by
      have h1 : ((hostname, some address) :: rest).countP
          (fun p => p.2.isSome) = rest.countP (fun p => p.2.isSome) + 1 := by
        simp [List.countP_cons]
      have h2 : ((hostname, some address) :: rest).countP
          (fun p => p.2.isNone) = rest.countP (fun p => p.2.isNone) := by
        simp [List.countP_cons]
      have h3 : r + (rest.countP (fun p => p.2.isSome) + 1)
          = r + 1 + rest.countP (fun p => p.2.isSome) := by omega
      rw [lookupLoop, lookupLoop_eq rest (r + 1) f0, List.map_cons,
        List.cons_append, h1, h2, h3]

lemma reverseLookupLoop_eq :
    ∀ (results : List (String × Option String))
      (num_resolved num_failed : Nat),
      reverseLookupLoop results num_resolved num_failed
        = results.map LookupEvent.yield
          ++ [LookupEvent.summary
                (num_resolved + results.countP (fun p => p.2.isSome))
                (num_failed + results.countP (fun p => p.2.isNone))]
  | [], r, f0 => by simp [reverseLookupLoop]
  | (address, none) :: rest, r, f0 => by
      have h1 : ((address, none) :: rest).countP (fun p => p.2.isSome)
          = rest.countP (fun p => p.2.isSome) := by
        simp [List.countP_cons]
      have h2 : ((address, none) :: rest).countP (fun p => p.2.isNone)
          = rest.countP (fun p => p.2.isNone) + 1 := by
        simp [List.countP_cons]
      have h3 : f0 + (rest.countP (fun p => p.2.isNone) + 1)
          = f0 + 1 + rest.countP (fun p => p.2.isNone) := by omega
      rw [reverseLookupLoop, reverseLookupLoop_eq rest r (f0 + 1),
        List.map_cons, List.cons_append, h1, h2, h3]
  | (address, some hostname) :: rest, r, f0 => by
      have h1 : ((address, some hostname) :: rest).countP
          (fun p => p.2.isSome) = rest.countP (fun p => p.2.isSome) + 1 := by
        simp [List.countP_cons]
      have h2 : ((address, some hostname) :: rest).countP
          (fun p => p.2.isNone) = rest.countP (fun p => p.2.isNone) := by
        simp [List.countP_cons]
      have h3 : r + (rest.countP (fun p => p.2.isSome) + 1)
          = r + 1 + rest.countP (fun p => p.2.isSome) := by omega
      rw [reverseLookupLoop, reverseLookupLoop_eq rest (r + 1) f0,
        List.map_cons, List.cons_append, h1, h2, h3]

/-- In a prefix of "`N` yields then one summary", the summary appears iff
the prefix is longer than `N`, and then exactly once. -/
lemma countP_isSummary_take (pairs : List (String × Option String))
    (r f0 : Nat) :
    ∀ k : Nat,
      ((pairs.map LookupEvent.yield
          ++ [LookupEvent.summary r f0]).take k).countP
        LookupEvent.isSummary
        = if pairs.length < k then 1 else 0 := by
  induction pairs with
  | nil =>
      intro k
      cases k with
      | zero => simp
      | succ k => simp [LookupEvent.isSummary]
  | cons p rest ih =>
      intro k
      cases k with
      | zero => simp
      | succ k =>
          rw [List.map_cons, List.cons_append, List.take_succ_cons,
            List.countP_cons, ih k]
          simp [LookupEvent.isSummary]

example :
    DNSClient.lookup [("a.nz", some "1.2.3.4"), ("b.nz", none)]
      = [LookupEvent.yield ("a.nz", some "1.2.3.4"),
         LookupEvent.yield ("b.nz", none),
         LookupEvent.summary 1 1] := by decide

example :
    (DNSClient.lookup [("a.nz", some "1.2.3.4"), ("b.nz", none)]).take 2
      = [LookupEvent.yield ("a.nz", some "1.2.3.4"),
         LookupEvent.yield ("b.nz", none)] := by decide

lemma countP_isSome_add_isNone (results : List (String × Option String)) :
    results.countP (fun p => p.2.isSome)
      + results.countP (fun p => p.2.isNone) = results.length := by
  induction results with
  | nil => rfl
  | cons p rest ih =>
      rcases p with ⟨a, b⟩
      cases b <;> simp [List.countP_cons] <;> omega

/-- C5: both `lookup` and `reverse_lookup` emit exactly one summary log
line, and they emit it iff the caller drains the yielded sequence to
exhaustion: a caller that performs `k` generator requests observes the
trace prefix of length `k`, and that prefix contains the summary event
exactly once when `k` exceeds the number of yielded pairs (the request that
observes exhaustion) and never otherwise — in particular an abandoned
sequence never logs the summary. -/
theorem dns_summary_emitted_iff_drained
    (results : List (String × Option String)) (k : Nat) :
    ((DNSClient.lookup results).take k).countP LookupEvent.isSummary
        = (if results.length < k then 1 else 0)
      ∧ ((DNSClient.reverse_lookup results).take k).countP
          LookupEvent.isSummary
        = (if results.length < k then 1 else 0) := by
  constructor
  · rw [DNSClient.lookup, lookupLoop_eq results 0 0]
    exact countP_isSummary_take results _ _ k
  · rw [DNSClient.reverse_lookup, reverseLookupLoop_eq results 0 0]
    exact countP_isSummary_take results _ _ k

/-- C8: on a fully drained call, the trace is the yielded pairs followed by
one summary whose counters partition them exactly: `num_resolved` counts
the pairs whose second component is not `None`, `num_failed` those whose
second component is `None`, and the two sum to the number of pairs yielded.
Holds for `lookup` and `reverse_lookup` alike. -/
theorem dns_summary_counters_partition
    (results : List (String × Option String)) :
    DNSClient.lookup results
        = results.map LookupEvent.yield
          ++ [LookupEvent.summary (results.countP (fun p => p.2.isSome))
                (results.countP (fun p => p.2.isNone))]
      ∧ DNSClient.reverse_lookup results
        = results.map LookupEvent.yield
          ++ [LookupEvent.summary (results.countP (fun p => p.2.isSome))
                (results.countP (fun p => p.2.isNone))]
      ∧ results.countP (fun p => p.2.isSome)
          + results.countP (fun p => p.2.isNone) = results.length := by
  refine ⟨?_, ?_, countP_isSome_add_isNone results⟩
  · rw [DNSClient.lookup, lookupLoop_eq results 0 0]
    simp
  · rw [DNSClient.reverse_lookup, reverseLookupLoop_eq results 0 0]
    simp

end DigitalAdvisor
